import Mathlib

/-!
Verification development for the AudioCinema repository.

The repository is a small Tk GUI application (`gui_app.py`) that records a
test clip, compares it against a stored reference track and exports/sends the
result.  The definitions below are a shallow embedding of the code paths the
claims are about:

* the inline mono downmix / linear-interpolation resampling performed in
  `_run_once` (gui_app.py lines 483-491);
* `_apply_bandpass` (gui_app.py lines 342-350), an rfft / mask / irfft
  brick-wall filter, embedded with an exact complex DFT;
* `_record_reference_here` / `_plot_reference_waveforms`
  (gui_app.py lines 352-399);
* `send_json_to_thingsboard` (iot_tb.py lines 9-55);
* `pick_input_device` (gui_app.py lines 59-83);
* the orchestration of `_run_once` (gui_app.py lines 472-538), modelled as a
  pure function from an environment (file system, microphone, transport
  behaviour) to a typed result together with an ordered effect log.

Sample amplitudes are modelled as exact rationals for the pipeline (the
claims under study are about structure, lengths and exact endpoint values,
all of which hold in exact arithmetic precisely when they hold for the float
code) and as reals/complexes for the Fourier filter.  Functions of
`analyzer.py` (not part of the sources: `normalize_mono`, `analyze_pair`,
`detect_beeps`, `build_segments`, `build_json_payload`) enter as parameters
of the orchestration model.
-/

/-- Python's banker's rounding (`round`), on exact rationals: round half to
even.  `_run_once` computes `int(round(len(x_ref) * fs / fs_ref))`. -/
def pyRound (q : ℚ) : ℤ :=
  let f := ⌊q⌋
  let r := q - f
  if r < 1 / 2 then f
  else if 1 / 2 < r then f + 1
  else if f % 2 = 0 then f else f + 1

/-- `np.linspace(0.0, 1.0, n)` as a list of rationals.  For `n = 1` numpy
returns `[0.0]`; the formula `i / (n - 1)` yields `0 / 0 = 0` there, which is
also how rational division by zero behaves, so one formula covers all `n`. -/
def linspace01 (n : ℕ) : List ℚ :=
  (List.range n).map fun (i : ℕ) => (i : ℚ) / ((n : ℚ) - 1)

/-- `np.interp(t, xp, fp)` for an increasing abscissa list `xp`:
clamp below `xp[0]` and above `xp[-1]`, linear interpolation in between.
Mirrors numpy's documented behaviour on increasing `xp`. -/
def npInterp (t : ℚ) : List ℚ → List ℚ → ℚ
  | [], _ => 0
  | [_], f1 :: _ => f1
  | x1 :: x2 :: xs, f1 :: f2 :: fs =>
      if t ≤ x1 then f1
      else if t ≤ x2 then f1 + (f2 - f1) * (t - x1) / (x2 - x1)
      else npInterp t (x2 :: xs) (f2 :: fs)
  | _, _ => 0

/-- The resampling branch of `_run_once` (gui_app.py lines 487-491):
`n_new = int(round(len(x) * fs / fs_ref))`, then linear interpolation of the
samples over a normalized `[0, 1]` axis at `n_new` equally spaced points. -/
def resampleLinear (x : List ℚ) (fsRef fs : ℕ) : List ℚ :=
  let nNew := (pyRound ((x.length : ℚ) * (fs : ℚ) / (fsRef : ℚ))).toNat
  (linspace01 nNew).map fun t => npInterp t (linspace01 x.length) x

/-- The guarded resampling step of `_run_once`: the interpolation only runs
under `if fs_ref != fs:`; equal rates leave the track untouched. -/
def reconcileRate (x : List ℚ) (fsRef fs : ℕ) : List ℚ :=
  if fsRef = fs then x else resampleLinear x fsRef fs

/-- Multi- or single-channel audio data as returned by
`sf.read(..., always_2d=False)`: a mono file gives a flat sample list, a
multi-channel file a list of frames, one sample per channel. -/
inductive AudioData (α : Type) where
  | mono (xs : List α)
  | multi (rows : List (List α))
deriving DecidableEq

/-- The inline downmix of `_run_once` / `_plot_reference_waveforms`:
`if x.ndim == 2: x = x.mean(axis=1)` — frame-wise mean over channels for
two-dimensional data, identity on mono data. -/
def downmix {α : Type} [DivisionRing α] : AudioData α → List α
  | .mono xs => xs
  | .multi rows => rows.map fun r => r.sum / (r.length : α)

section Strings

/-- Prefix test at the front of a character list: `matchesAt needle hay` is
true iff `needle` occurs verbatim at the start of `hay`. -/
def matchesAt : List Char → List Char → Bool
  | [], _ => true
  | _ :: _, [] => false
  | a :: as, b :: bs => a == b && matchesAt as bs

/-- Python's `s.startswith(pre)`. -/
def strStartsWith (pre s : String) : Bool :=
  matchesAt pre.toList s.toList

/-- Python's `needle in hay` on strings: `needle` occurs contiguously
somewhere in `hay`. -/
def hasSub (needle : List Char) : List Char → Bool
  | [] => matchesAt needle []
  | b :: bs => matchesAt needle (b :: bs) || hasSub needle bs

/-- Case folding used by the code's `.lower()` calls. -/
def lowerStr (s : List Char) : List Char :=
  s.map Char.toLower

end Strings

section Telemetry

/-- JSON-ish telemetry values; their content is never inspected by the
transport code, only the keys are. -/
inductive JVal where
  | str (s : String)
  | num (q : ℚ)
  | boolean (b : Bool)
deriving DecidableEq

/-- A JSON object as an ordered association list, the shape
`send_json_to_thingsboard` receives from `build_json_payload`. -/
abbrev Payload : Type := List (String × JVal)

/-- `plano = {k: v for k, v in payload.items() if k.startswith("canal")}`
(iot_tb.py line 31): the flattened per-channel view is the sub-object of the
payload whose keys start with `"canal"`. -/
def planoOf (p : Payload) : Payload :=
  p.filter fun kv => strStartsWith "canal" kv.1

/-- `send_json_to_thingsboard` (iot_tb.py lines 9-55), as a function from the
payload and the transport's behaviour (does connecting succeed?) to the
returned boolean and the ordered list of published messages.  On a successful
connection the code publishes the flat view only when it is non-empty
(`if plano:`), then always publishes the full payload; any exception is
caught and turned into a `False` return with nothing published. -/
def send_json_to_thingsboard (payload : Payload) (connectOk : Bool) :
    Bool × List Payload :=
  if connectOk then
    let plano := planoOf payload
    (true, (if plano.isEmpty then [] else [plano]) ++ [payload])
  else
    (false, [])

end Telemetry

section SpectralFilter

open Complex

/-- `np.fft.rfftfreq(n, d=1.0/fs)[k] = k * fs / n`, the center frequency of
bin `k` of the real FFT of an `n`-sample signal at rate `fs`, as an exact
rational. -/
def rfftfreq (n fs k : ℕ) : ℚ :=
  ((k : ℚ) * (fs : ℚ)) / (n : ℚ)

/-- Bin `k` of `np.fft.rfft(x)`: the plain DFT sum
`Σ_t x[t]·exp(-2πi·k·t/n)`. -/
noncomputable def rfftBin (x : List ℝ) (k : ℕ) : ℂ :=
  ∑ t ∈ Finset.range x.length,
    ((x.getD t 0 : ℝ) : ℂ) *
      Complex.exp (-(2 * (Real.pi : ℂ) * Complex.I) * k * t / (x.length : ℂ))

/-- `np.fft.rfft(x)`: the list of the `n/2 + 1` non-negative-frequency bins
of the DFT of `x`. -/
noncomputable def rfftList (x : List ℝ) : List ℂ :=
  (List.range (x.length / 2 + 1)).map (rfftBin x)

/-- The mask-and-zero step of `_apply_bandpass`
(`mask = (freqs >= low_hz) & (freqs <= high_hz); X[~mask] = 0`): every bin
whose center frequency lies outside the closed band `[low, high]` is set to
zero, bins inside the band are kept. -/
noncomputable def maskedSpectrum (x : List ℝ) (fs : ℕ) (low high : ℚ) :
    List ℂ :=
  (List.range (x.length / 2 + 1)).map fun k =>
    if low ≤ rfftfreq x.length fs k ∧ rfftfreq x.length fs k ≤ high then
      rfftBin x k
    else 0

/-- `np.fft.irfft(X, n)`: real inverse FFT onto `n` time samples, assuming
`X` holds the non-negative-frequency bins.  Bin `0` (and bin `n/2` for even
`n`) contribute once, all the others twice (their conjugate mirror images). -/
noncomputable def irfftList (X : List ℂ) (n : ℕ) : List ℝ :=
  (List.range n).map fun (t : ℕ) =>
    (1 / (n : ℝ)) *
      ∑ k ∈ Finset.range X.length,
        (if k = 0 ∨ 2 * k = n then (1 : ℝ) else 2) *
          (X.getD k 0 *
            Complex.exp (2 * (Real.pi : ℂ) * Complex.I * (k : ℂ) * (t : ℂ) / (n : ℂ))).re

/-- `_apply_bandpass` (gui_app.py lines 342-350): return a zero-length track
unchanged, otherwise take the real FFT, zero every bin outside
`[low_hz, high_hz]` and inverse-transform back onto `len(x)` samples. -/
noncomputable def apply_bandpass (x : List ℝ) (fs : ℕ) (low high : ℚ) :
    List ℝ :=
  if x.length = 0 then x
  else irfftList (maskedSpectrum x fs low high) x.length

/-- `_record_reference_here` (gui_app.py lines 383-399): the sample data
written to `assets/reference_master.wav` is the captured array `x` itself
(`sf.write(str(out), x, fs_now)`) — no transform is applied before saving. -/
def savedReferenceSamples (captured : List ℝ) : List ℝ :=
  captured

/-- The "Reference - TRIMMED" curve of `_plot_reference_waveforms`
(gui_app.py lines 362-370): the loaded file data is downmixed, normalized by
the (externally defined) `normalize_mono`, and band-passed with the fixed
cutoffs `REF_CUTOFF_LOW_HZ = 30.0`, `REF_CUTOFF_HIGH_HZ = 8000.0`; this
filtered signal is only plotted, never written anywhere. -/
noncomputable def plotTrimmedTrack (normalizeMono : List ℝ → List ℝ)
    (fileData : AudioData ℝ) (fsRef : ℕ) : List ℝ :=
  apply_bandpass (normalizeMono (downmix fileData)) fsRef 30 8000

end SpectralFilter

section DevicePick

/-- One entry of `sd.query_devices()`: only the fields `pick_input_device`
reads. -/
structure InDevice where
  name : List Char
  maxInputChannels : ℤ
deriving DecidableEq

/-- State of the `AUDIOCINEMA_INPUT_INDEX` environment variable as the code
observes it: unset/empty (falsy, skipped), set but not parseable by `int()`
(the `except` branch passes), or parsed to an integer. -/
inductive EnvIdx where
  | off
  | bad
  | idx (i : ℤ)
deriving DecidableEq

/-- The environment-override branch of `pick_input_device`
(gui_app.py lines 66-72): a parsed index is accepted iff it is in range and
names a device with `max_input_channels > 0`; otherwise the branch falls
through. -/
def envChoice (env : EnvIdx) (devices : List InDevice) : Option ℕ :=
  match env with
  | .off => none
  | .bad => none
  | .idx i =>
      if h : 0 ≤ i ∧ i.toNat < devices.length then
        if 0 < (devices.get ⟨i.toNat, h.2⟩).maxInputChannels then
          some i.toNat
        else none
      else none

/-- An `for i, d in enumerate(devices)` loop that returns the index of the
first device satisfying the loop's condition, or `None`. -/
def firstIdxWhere (p : InDevice → Bool) : List InDevice → Option ℕ
  | [] => none
  | d :: ds => if p d then some 0 else (firstIdxWhere p ds).map (· + 1)

/-- The preferred-name loop of `pick_input_device` (gui_app.py lines 74-78):
first device whose lowercased name contains the lowercased preferred
substring and which has `max_input_channels > 0`. -/
def firstPreferred (s : List Char) (ds : List InDevice) : Option ℕ :=
  firstIdxWhere
    (fun d => hasSub (lowerStr s) (lowerStr d.name) && decide (0 < d.maxInputChannels)) ds

/-- The fallback loop of `pick_input_device` (gui_app.py lines 80-83): first
device with `max_input_channels > 0`. -/
def firstCapable (ds : List InDevice) : Option ℕ :=
  firstIdxWhere (fun d => decide (0 < d.maxInputChannels)) ds

/-- `pick_input_device` (gui_app.py lines 59-83).  `query` is
`sd.query_devices()`'s outcome: `none` when the call raises (the code then
returns `None`), otherwise the device list.  The three prioritized branches
are tried in the order of the code; an empty preferred substring is falsy in
Python, so the name loop is skipped for it. -/
def pick_input_device (env : EnvIdx) (pref : List Char)
    (query : Option (List InDevice)) : Option ℕ :=
  match query with
  | none => none
  | some devices =>
      match envChoice env devices with
      | some i => some i
      | none =>
          match (if pref.isEmpty then none else firstPreferred pref devices) with
          | some i => some i
          | none => firstCapable devices

end DevicePick

section RunOnce

/-- The value `analyze_pair` returns, reduced to the one field `_run_once`
inspects: `res["overall"]`, compared against the string `"PASSED"`. -/
structure AnalyzerRes where
  overall : String
deriving DecidableEq

/-- The collaborator functions `_run_once` calls that live in `analyzer.py`,
a module that is not part of the sources under study.  The orchestration
model is parametric in them; none of the claims about `_run_once` depends on
their content. -/
structure Collab where
  normalizeMono : List ℚ → List ℚ
  analyzePair : List ℚ → List ℚ → ℕ → AnalyzerRes
  detectBeeps : List ℚ → ℕ → List ℕ
  buildSegments : List ℚ → ℕ → List ℕ → List (ℕ × ℕ)
  buildPayload : ℕ → AnalyzerRes → List ℕ → List ℕ →
    List (ℕ × ℕ) → List (ℕ × ℕ) → Payload

/-- The external state one invocation of `_run_once` observes: configuration
values, whether the configured reference file exists, its decoded contents
and rate, the samples the microphone would deliver, and whether the MQTT
connection would succeed. -/
structure RunEnv where
  fs : ℕ
  refExists : Bool
  refData : AudioData ℚ
  refRate : ℕ
  micData : List ℚ
  token : String
  connectOk : Bool
deriving DecidableEq

/-- A typed failure of `_run_once`: the `FileNotFoundError` raised at
gui_app.py line 481 when the configured reference file is absent. -/
inductive RunError where
  | refNotFound
deriving DecidableEq

/-- Externally visible side effects of `_run_once`, in program order:
the microphone capture (`record_audio`, line 494), the JSON report written
to the reports directory (lines 521-523), and each message published by
`send_json_to_thingsboard` (line 531). -/
inductive RunEffect where
  | capture
  | exportReport (p : Payload)
  | publish (m : Payload)
deriving DecidableEq

/-- What `_run_once` hands back on success: the preprocessed reference it
compared against, the verdict shown (`res["overall"] == "PASSED"`), the
payload written to the report file, and the telemetry boolean. -/
structure RunResult where
  refUsed : List ℚ
  verdictPassed : Bool
  exported : Payload
  sent : Bool
deriving DecidableEq

instance {ε α : Type} [DecidableEq ε] [DecidableEq α] :
    DecidableEq (Except ε α) := fun x y =>
  match x, y with
  | .error a, .error b =>
      if h : a = b then .isTrue (by simp [h]) else .isFalse (by simp [h])
  | .error _, .ok _ => .isFalse (by simp)
  | .ok _, .error _ => .isFalse (by simp)
  | .ok a, .ok b =>
      if h : a = b then .isTrue (by simp [h]) else .isFalse (by simp [h])

/-- `_run_once` (gui_app.py lines 472-538) as a pure function: the result
(or typed error) paired with the ordered log of external effects.
Mirrors the code statement by statement: reference existence check (481),
downmix (484-485), `normalize_mono` (486), conditional resample (487-491),
capture (494), `analyze_pair` (497), beep/segment extraction (501-504),
JSON export (517-523), then telemetry only under `if token:` (530-531). -/
def run_once (c : Collab) (e : RunEnv) :
    Except RunError RunResult × List RunEffect :=
  if e.refExists = false then
    (.error .refNotFound, [])
  else
    let xref := reconcileRate (c.normalizeMono (downmix e.refData)) e.refRate e.fs
    let xcur := e.micData
    let res := c.analyzePair xref xcur e.fs
    let refMarkers := c.detectBeeps xref e.fs
    let curMarkers := c.detectBeeps xcur e.fs
    let refSegments := c.buildSegments xref e.fs refMarkers
    let curSegments := c.buildSegments xcur e.fs curMarkers
    let payload := c.buildPayload e.fs res refMarkers curMarkers refSegments curSegments
    let tele :=
      if e.token = "" then (false, [])
      else send_json_to_thingsboard payload e.connectOk
    (.ok { refUsed := xref
           verdictPassed := res.overall == "PASSED"
           exported := payload
           sent := tele.1 },
     RunEffect.capture :: RunEffect.exportReport payload ::
       tele.2.map RunEffect.publish)

/-- A concrete, computable instantiation of the missing `analyzer.py`
collaborators, used to evaluate the orchestration model on closed inputs. -/
def trivialCollab : Collab where
  normalizeMono := fun xs => xs
  analyzePair := fun _ _ _ => { overall := "PASSED" }
  detectBeeps := fun _ _ => []
  buildSegments := fun _ _ _ => []
  buildPayload := fun _ res _ _ _ _ => [("overall", JVal.str res.overall)]

/-- The preprocessed reference `_run_once` compares against: downmix,
`normalize_mono`, conditional resample (gui_app.py lines 483-491). -/
def runRef (c : Collab) (e : RunEnv) : List ℚ :=
  reconcileRate (c.normalizeMono (downmix e.refData)) e.refRate e.fs

/-- The payload `_run_once` passes to `json.dump` and to
`send_json_to_thingsboard` (gui_app.py lines 517-520). -/
def runPayload (c : Collab) (e : RunEnv) : Payload :=
  c.buildPayload e.fs (c.analyzePair (runRef c e) e.micData e.fs)
    (c.detectBeeps (runRef c e) e.fs) (c.detectBeeps e.micData e.fs)
    (c.buildSegments (runRef c e) e.fs (c.detectBeeps (runRef c e) e.fs))
    (c.buildSegments e.micData e.fs (c.detectBeeps e.micData e.fs))

/-- Environment in which the configured reference file does not exist. -/
def envMissingRef : RunEnv where
  fs := 48000
  refExists := false
  refData := .mono [1]
  refRate := 48000
  micData := []
  token := "tok"
  connectOk := true

/-- Environment in which the reference file exists but decodes to a
zero-length mono track. -/
def envEmptyRef : RunEnv where
  fs := 48000
  refExists := true
  refData := .mono []
  refRate := 48000
  micData := []
  token := ""
  connectOk := true

/-- Environment with an existing one-sample reference, a configured
telemetry token and a transport that would accept the connection. -/
def envWithToken : RunEnv where
  fs := 48000
  refExists := true
  refData := .mono [1]
  refRate := 48000
  micData := [1]
  token := "tok"
  connectOk := true

end RunOnce

/-! ### Helper lemmas about the normalized time axis and `np.interp` -/

lemma linspace01_length (n : ℕ) : (linspace01 n).length = n := by
  simp [linspace01]

lemma linspace01_head? (n : ℕ) (hn : 1 ≤ n) :
    (linspace01 n).head? = some 0 := by
  cases n with
  | zero => omega
  | succ m =>
      simp [linspace01, List.range_succ_eq_map, List.head?_map]

lemma linspace01_getLast? (n : ℕ) (hn : 2 ≤ n) :
    (linspace01 n).getLast? = some 1 := by
  have hlen : (linspace01 n).length = n := linspace01_length n
  rw [List.getLast?_eq_getElem? , hlen]
  simp only [linspace01, List.getElem?_map, List.getElem?_range (by omega : n - 1 < n)]
  have hcast : ((n - 1 : ℕ) : ℚ) = (n : ℚ) - 1 := by
    push_cast [Nat.cast_sub (by omega : 1 ≤ n)]
    ring
  have hne : ((n : ℚ) - 1) ≠ 0 := by
    have : (2 : ℚ) ≤ (n : ℚ) := by exact_mod_cast hn
    linarith
  simp [hcast, div_self hne]

lemma linspace01_mem_le_one (n : ℕ) (u : ℚ) (hu : u ∈ linspace01 n) :
    u ≤ 1 := by
  simp only [linspace01, List.mem_map, List.mem_range] at hu
  obtain ⟨i, hi, rfl⟩ := hu
  rcases Nat.lt_or_ge n 2 with hn | hn
  · have h01 : n = 0 ∨ n = 1 := by omega
    rcases h01 with rfl | rfl
    · simp at hi
    · have h0 : i = 0 := by omega
      subst h0
      norm_num
  · have hpos : (0 : ℚ) < (n : ℚ) - 1 := by
      have : (2 : ℚ) ≤ (n : ℚ) := by exact_mod_cast hn
      linarith
    have hile : (i : ℚ) ≤ (n : ℚ) - 1 := by
      have : (i : ℚ) + 1 ≤ (n : ℚ) := by exact_mod_cast hi
      linarith
    exact (div_le_one hpos).mpr hile

lemma linspace01_chain (n : ℕ) : List.Chain' (· < ·) (linspace01 n) := by
  rcases Nat.lt_or_ge n 2 with hn | hn
  · interval_cases n <;> simp [linspace01]
  · have hpos : (0 : ℚ) < (n : ℚ) - 1 := by
      have : (2 : ℚ) ≤ (n : ℚ) := by exact_mod_cast hn
      linarith
    refine List.Pairwise.chain' ?_
    refine List.Pairwise.map _ ?_ (List.pairwise_lt_range n)
    intro a b hab
    exact div_lt_div_of_pos_right (by exact_mod_cast hab) hpos

lemma npInterp_head (xp fp : List ℚ) (hlen : fp.length = xp.length)
    (h0 : xp.head? = some 0) : npInterp 0 xp fp = fp.headD 0 := by
  match xp, fp with
  | [], _ => simp at h0
  | [x1], [] => simp at hlen
  | [x1], f1 :: fs => simp_all [npInterp]
  | x1 :: x2 :: xs, [] => simp at hlen
  | x1 :: x2 :: xs, [f1] => simp at hlen
  | x1 :: x2 :: xs, f1 :: f2 :: fs =>
      have hx1 : x1 = 0 := by simpa using h0
      simp [npInterp, hx1]

lemma linspace01_one : linspace01 1 = [0] := by
  norm_num [linspace01, List.range_succ]

lemma npInterp_last (xp fp : List ℚ) (hlen : fp.length = xp.length)
    (hchain : List.Chain' (· < ·) xp) (hle : ∀ u ∈ xp, u ≤ 1)
    (hlast : xp.getLast? = some 1) : npInterp 1 xp fp = fp.getLastD 0 := by
  match xp, fp with
  | [], _ => simp at hlast
  | [x1], [] => simp at hlen
  | [x1], f1 :: fs =>
      have : fs = [] := by simpa using hlen
      subst this
      have hx1 : x1 = 1 := by simpa using hlast
      simp [npInterp, hx1]
  | x1 :: x2 :: xs, [] => simp at hlen
  | x1 :: x2 :: xs, [f1] => simp at hlen
  | x1 :: x2 :: xs, f1 :: f2 :: fs =>
      have h12 : x1 < x2 := (List.chain'_cons.mp hchain).1
      have hx2le : x2 ≤ 1 := hle x2 (by simp)
      have hnot1 : ¬(1 : ℚ) ≤ x1 := by linarith
      match xs, fs with
      | [], [] =>
          have hx2 : x2 = 1 := by simpa using hlast
          have hne : (1 : ℚ) - x1 ≠ 0 := by
            have : x1 < 1 := hx2 ▸ h12
            linarith
          have hstep : npInterp 1 [x1, x2] [f1, f2]
              = f1 + (f2 - f1) * (1 - x1) / (x2 - x1) := by
            show (if (1 : ℚ) ≤ x1 then f1
                  else if 1 ≤ x2 then f1 + (f2 - f1) * (1 - x1) / (x2 - x1)
                  else npInterp 1 [x2] [f2]) = _
            rw [if_neg hnot1, if_pos hx2.ge]
          have hlastD : [f1, f2].getLastD 0 = f2 := rfl
          rw [hstep, hx2, mul_div_assoc, div_self hne, mul_one, hlastD]
          ring
      | [], _ :: _ => simp at hlen
      | _ :: _, [] => simp at hlen
      | x3 :: xs', f3 :: fs' =>
          have h23 : x2 < x3 := (List.chain'_cons.mp (List.chain'_cons.mp hchain).2).1
          have hx3le : x3 ≤ 1 := hle x3 (by simp)
          have hnot2 : ¬(1 : ℚ) ≤ x2 := by linarith
          have hrec := npInterp_last (x2 :: x3 :: xs') (f2 :: f3 :: fs')
            (by simpa using hlen) (List.chain'_cons.mp hchain).2
            (fun u hu => hle u (by simp at hu ⊢; tauto))
            (by simpa using hlast)
          have hstep : npInterp 1 (x1 :: x2 :: x3 :: xs') (f1 :: f2 :: f3 :: fs')
              = npInterp 1 (x2 :: x3 :: xs') (f2 :: f3 :: fs') := by
            show (if (1 : ℚ) ≤ x1 then f1
                  else if 1 ≤ x2 then f1 + (f2 - f1) * (1 - x1) / (x2 - x1)
                  else npInterp 1 (x2 :: x3 :: xs') (f2 :: f3 :: fs')) = _
            rw [if_neg hnot1, if_neg hnot2]
          rw [hstep]
          simpa using hrec

/-! ### Claim C2 — sample-rate reconciliation -/

/-- C2 counterexample: for the two-sample reference `[0, 1]` at rate 2
resampled to rate 1 (rates differ), the code produces
`round(2 * 1 / 2) = 1` sample, namely `[0]`; its last sample is `0`, not the
last input sample `1`, so "the last output sample equals the last input
sample exactly" fails as stated. -/
theorem resample_endpoint_counterexample :
    (2 : ℕ) ≠ 1 ∧
    reconcileRate [(0 : ℚ), 1] 2 1 = [0] ∧
    (reconcileRate [(0 : ℚ), 1] 2 1).getLast? ≠ ([(0 : ℚ), 1]).getLast? := by
  have h2 : reconcileRate [(0 : ℚ), 1] 2 1 = [0] := by
    norm_num [reconcileRate, resampleLinear, pyRound, linspace01, npInterp,
      List.range_succ]
  refine ⟨by decide, h2, ?_⟩
  rw [h2]
  simp only [List.getLast?, ne_eq, Option.some.injEq]
  norm_num

/-- C2 (amended): when the rates are equal the track is unchanged; when they
differ, resampling produces exactly `round(len * fs / fs_ref)` samples by
linear interpolation over a normalized `[0, 1]` axis, the first output
sample equals the first input sample whenever at least one sample is
produced, and the last output sample equals the last input sample whenever
at least two samples are produced (a single-sample output repeats the first
input sample instead). -/
theorem resample_spec (x : List ℚ) (fsRef fs : ℕ) (hx : x ≠ []) :
    reconcileRate x fs fs = x ∧
    (fsRef ≠ fs →
      (reconcileRate x fsRef fs).length
        = (pyRound ((x.length : ℚ) * (fs : ℚ) / (fsRef : ℚ))).toNat ∧
      (1 ≤ (pyRound ((x.length : ℚ) * (fs : ℚ) / (fsRef : ℚ))).toNat →
        (reconcileRate x fsRef fs).head? = x.head?) ∧
      (2 ≤ (pyRound ((x.length : ℚ) * (fs : ℚ) / (fsRef : ℚ))).toNat →
        (reconcileRate x fsRef fs).getLast? = x.getLast?)) := by
  have hlen1 : 1 ≤ x.length := by
    cases x with
    | nil => exact absurd rfl hx
    | cons a t => simp
  constructor
  · simp [reconcileRate]
  · intro hne
    have hre : reconcileRate x fsRef fs
        = (linspace01 ((pyRound ((x.length : ℚ) * (fs : ℚ) / (fsRef : ℚ))).toNat)).map
            (fun t => npInterp t (linspace01 x.length) x) := by
      simp [reconcileRate, hne, resampleLinear]
    refine ⟨?_, ?_, ?_⟩
    · rw [hre, List.length_map, linspace01_length]
    · intro h1
      rw [hre, List.head?_map, linspace01_head? _ h1, Option.map_some']
      rw [npInterp_head (linspace01 x.length) x (by rw [linspace01_length])
        (linspace01_head? _ hlen1)]
      cases x with
      | nil => exact absurd rfl hx
      | cons a t => rfl
    · intro h2
      rw [hre, List.getLast?_map, linspace01_getLast? _ h2, Option.map_some']
      rcases Nat.lt_or_ge x.length 2 with hl2 | hl2
      · have hx1 : x.length = 1 := by omega
        match x, hx1 with
        | [a], _ =>
            have hl : linspace01 ([a] : List ℚ).length = [0] := by
              simpa using linspace01_one
            rw [hl]
            simp [npInterp]
      · rw [npInterp_last (linspace01 x.length) x (by rw [linspace01_length])
          (linspace01_chain _) (fun u hu => linspace01_mem_le_one _ u hu)
          (linspace01_getLast? _ hl2)]
        cases x with
        | nil => exact absurd rfl hx
        | cons a t =>
            rw [List.getLastD_eq_getLast?, List.getLast?_eq_getLast (a :: t) (by simp)]
            rfl

/-- C2 witness: upsampling the two-sample track `[0, 1]` from rate 1 to
rate 2 yields `round(2 * 2 / 1) = 4` samples with both endpoints preserved. -/
theorem resample_spec_witness :
    ([(0 : ℚ), 1] ≠ ([] : List ℚ)) ∧
    (reconcileRate [(0 : ℚ), 1] 1 1 = [(0 : ℚ), 1] ∧
    ((1 : ℕ) ≠ 2 →
      (reconcileRate [(0 : ℚ), 1] 1 2).length
        = (pyRound ((([(0 : ℚ), 1].length : ℚ)) * ((2 : ℕ) : ℚ) / ((1 : ℕ) : ℚ))).toNat ∧
      (1 ≤ (pyRound ((([(0 : ℚ), 1].length : ℚ)) * ((2 : ℕ) : ℚ) / ((1 : ℕ) : ℚ))).toNat →
        (reconcileRate [(0 : ℚ), 1] 1 2).head? = [(0 : ℚ), 1].head?) ∧
      (2 ≤ (pyRound ((([(0 : ℚ), 1].length : ℚ)) * ((2 : ℕ) : ℚ) / ((1 : ℕ) : ℚ))).toNat →
        (reconcileRate [(0 : ℚ), 1] 1 2).getLast? = [(0 : ℚ), 1].getLast?))) :=
  ⟨by simp, resample_spec [(0 : ℚ), 1] 1 2 (by simp)⟩

/-! ### Claim C8 — mono downmix -/

/-- C8: for multi-channel data with a uniform channel count `c > 0`, the
downmix keeps the frame count and replaces frame `i` by the arithmetic mean
of its `c` channel samples; data that is already mono is returned
unchanged. -/
theorem downmix_spec (rows : List (List ℚ)) (c : ℕ) (hc : 0 < c)
    (hrows : ∀ r ∈ rows, r.length = c) (xs : List ℚ) :
    (downmix (AudioData.multi rows)).length = rows.length ∧
    (∀ i, ∀ h : i < rows.length,
      (downmix (AudioData.multi rows))[i]?
        = some ((rows.get ⟨i, h⟩).sum / (c : ℚ))) ∧
    downmix (AudioData.mono xs) = xs := by
  refine ⟨by simp [downmix], ?_, by simp [downmix]⟩
  intro i h
  have hr : rows[i]? = some (rows.get ⟨i, h⟩) := by
    rw [List.getElem?_eq_getElem h]
    rfl
  simp only [downmix, List.getElem?_map, hr, Option.map_some']
  rw [hrows (rows.get ⟨i, h⟩) (List.get_mem rows i h)]

/-- C8 witness: downmixing the two-frame stereo data `[[1, 3], [2, 4]]`
with channel count 2, and the mono track `[5]`. -/
theorem downmix_spec_witness :
    ((0 < 2) ∧ (∀ r ∈ [[(1 : ℚ), 3], [2, 4]], r.length = 2)) ∧
    ((downmix (AudioData.multi [[(1 : ℚ), 3], [2, 4]])).length
        = [[(1 : ℚ), 3], [2, 4]].length ∧
      (∀ i, ∀ h : i < [[(1 : ℚ), 3], [2, 4]].length,
        (downmix (AudioData.multi [[(1 : ℚ), 3], [2, 4]]))[i]?
          = some (([[(1 : ℚ), 3], [2, 4]].get ⟨i, h⟩).sum / ((2 : ℕ) : ℚ))) ∧
      downmix (AudioData.mono [(5 : ℚ)]) = [(5 : ℚ)]) :=
  ⟨⟨by decide, by decide⟩,
    downmix_spec [[(1 : ℚ), 3], [2, 4]] 2 (by decide) (by decide) [(5 : ℚ)]⟩

/-! ### Claim C6 — the flattened view is a projection of the payload -/

lemma planoOf_lookup (p : Payload) (k : String)
    (hk : strStartsWith "canal" k = true) :
    (planoOf p).lookup k = p.lookup k := by
  induction p with
  | nil => rfl
  | cons kv rest ih =>
      by_cases hkv : strStartsWith "canal" kv.1 = true
      · show (List.filter _ (kv :: rest)).lookup k = _
        rw [List.filter_cons_of_pos (by simpa using hkv)]
        cases kv with
        | mk k' v =>
            show List.lookup k ((k', v) :: _) = List.lookup k ((k', v) :: _)
            by_cases hkk : k == k'
            · simp [List.lookup, hkk]
            · simp only [List.lookup, hkk]
              exact ih
      · show (List.filter _ (kv :: rest)).lookup k = _
        rw [List.filter_cons_of_neg (by simpa using hkv)]
        cases kv with
        | mk k' v =>
            have hne : (k == k') = false :=
              beq_eq_false_iff_ne.mpr (fun heq => hkv (heq ▸ hk))
            show _ = List.lookup k ((k', v) :: rest)
            simp only [List.lookup, hne]
            exact ih

/-- C6: the flattened per-channel view is a pure projection of the payload:
an entry belongs to the flat view exactly when it belongs to the full
payload and its key starts with `"canal"`; in particular every flat entry
occurs in the payload, and looking up any `"canal…"` key in the flat view
agrees with looking it up in the full payload. -/
theorem plano_projection (p : Payload) :
    (∀ kv, kv ∈ planoOf p → kv ∈ p) ∧
    (∀ kv, kv ∈ planoOf p ↔ kv ∈ p ∧ strStartsWith "canal" kv.1 = true) ∧
    (∀ k, strStartsWith "canal" k = true →
      (planoOf p).lookup k = p.lookup k) := by
  refine ⟨?_, ?_, fun k hk => planoOf_lookup p k hk⟩
  · intro kv hkv
    exact (List.mem_filter.mp hkv).1
  · intro kv
    constructor
    · intro hkv
      have := List.mem_filter.mp hkv
      exact ⟨this.1, by simpa using this.2⟩
    · intro hkv
      exact List.mem_filter.mpr ⟨hkv.1, by simpa using hkv.2⟩

/-- C6 witness: on the payload `[("canal1", "OK"), ("overall", "FAILED")]`
the flat view keeps exactly the `canal1` entry and lookups agree. -/
theorem plano_projection_witness :
    (strStartsWith "canal" "canal1" = true) ∧
    ((planoOf [("canal1", JVal.str "OK"), ("overall", JVal.str "FAILED")]).lookup "canal1"
      = ([("canal1", JVal.str "OK"), ("overall", JVal.str "FAILED")] : Payload).lookup "canal1") ∧
    (planoOf [("canal1", JVal.str "OK"), ("overall", JVal.str "FAILED")]
      = [("canal1", JVal.str "OK")]) :=
  ⟨by decide,
    (plano_projection [("canal1", JVal.str "OK"), ("overall", JVal.str "FAILED")]).2.2
      "canal1" (by decide),
    by decide⟩

/-! ### Claims C4, C9, C7, C3 — the `_run_once` orchestration -/

lemma run_once_eq_of_refExists (c : Collab) (e : RunEnv)
    (h : e.refExists = true) :
    run_once c e =
      (Except.ok
        { refUsed := runRef c e
          verdictPassed :=
            (c.analyzePair (runRef c e) e.micData e.fs).overall == "PASSED"
          exported := runPayload c e
          sent := (if e.token = "" then (false, ([] : List Payload))
            else send_json_to_thingsboard (runPayload c e) e.connectOk).1 },
       RunEffect.capture :: RunEffect.exportReport (runPayload c e) ::
         (if e.token = "" then (false, ([] : List Payload))
           else send_json_to_thingsboard (runPayload c e) e.connectOk).2.map
             RunEffect.publish) := by
  simp [run_once, h, runRef, runPayload]

/-- C4: when the configured reference file is absent, `_run_once` fails with
the typed `FileNotFoundError` before doing anything: the effect log is empty,
so no microphone capture, no analysis, no exported report and no telemetry
publish ever happen, and no result is substituted. -/
theorem run_once_missing_reference (c : Collab) (e : RunEnv)
    (h : e.refExists = false) :
    run_once c e = (Except.error RunError.refNotFound, []) := by
  simp [run_once, h]

/-- C4 witness: the concrete environment `envMissingRef` with the trivial
collaborators. -/
theorem run_once_missing_reference_witness :
    (envMissingRef.refExists = false) ∧
    run_once trivialCollab envMissingRef = (Except.error RunError.refNotFound, []) :=
  ⟨rfl, run_once_missing_reference trivialCollab envMissingRef rfl⟩

/-- C9: telemetry cannot alter a run's outcome.  For every completed run the
effect log shows the report export strictly before any telemetry publish;
with an empty token nothing is published and `sent` is `False`; with a
non-empty token the returned boolean equals the transport outcome and a
failed connection publishes nothing; `send_json_to_thingsboard` totally
returns a boolean (`True` on success, `False` on failure); and the exported
payload and the verdict are unchanged under any change of token or transport
outcome. -/
theorem run_once_telemetry_isolation (c : Collab) (e : RunEnv)
    (h : e.refExists = true) :
    (∃ r : RunResult, ∃ pubs : List Payload,
      (run_once c e).1 = Except.ok r ∧
      (run_once c e).2
        = RunEffect.capture :: RunEffect.exportReport r.exported
            :: pubs.map RunEffect.publish ∧
      (e.token = "" → pubs = [] ∧ r.sent = false) ∧
      (e.token ≠ "" → r.sent = e.connectOk ∧ (e.connectOk = false → pubs = []))) ∧
    (∀ p b, (send_json_to_thingsboard p b).1 = b) ∧
    (∀ t b,
      (run_once c { e with token := t, connectOk := b }).1.map RunResult.exported
        = (run_once c e).1.map RunResult.exported ∧
      (run_once c { e with token := t, connectOk := b }).1.map RunResult.verdictPassed
        = (run_once c e).1.map RunResult.verdictPassed) := by
  have hsend : ∀ p b, (send_json_to_thingsboard p b).1 = b := by
    intro p b
    cases b <;> simp [send_json_to_thingsboard]
  refine ⟨?_, hsend, ?_⟩
  · rw [run_once_eq_of_refExists c e h]
    refine ⟨_, (if e.token = "" then (false, ([] : List Payload))
      else send_json_to_thingsboard (runPayload c e) e.connectOk).2, rfl, rfl, ?_, ?_⟩
    · intro htok
      simp [htok]
    · intro htok
      rw [if_neg htok]
      refine ⟨hsend _ _, ?_⟩
      intro hconn
      simp [send_json_to_thingsboard, hconn]
  · intro t b
    have h' : ({ e with token := t, connectOk := b } : RunEnv).refExists = true := h
    rw [run_once_eq_of_refExists c e h, run_once_eq_of_refExists c _ h']
    constructor <;> rfl

/-- C9 witness: the concrete environment `envWithToken` with the trivial
collaborators. -/
theorem run_once_telemetry_isolation_witness :
    (envWithToken.refExists = true) ∧
    ((∃ r : RunResult, ∃ pubs : List Payload,
      (run_once trivialCollab envWithToken).1 = Except.ok r ∧
      (run_once trivialCollab envWithToken).2
        = RunEffect.capture :: RunEffect.exportReport r.exported
            :: pubs.map RunEffect.publish ∧
      (envWithToken.token = "" → pubs = [] ∧ r.sent = false) ∧
      (envWithToken.token ≠ "" → r.sent = envWithToken.connectOk ∧
        (envWithToken.connectOk = false → pubs = []))) ∧
    (∀ p b, (send_json_to_thingsboard p b).1 = b) ∧
    (∀ t b,
      (run_once trivialCollab { envWithToken with token := t, connectOk := b }).1.map
          RunResult.exported
        = (run_once trivialCollab envWithToken).1.map RunResult.exported ∧
      (run_once trivialCollab { envWithToken with token := t, connectOk := b }).1.map
          RunResult.verdictPassed
        = (run_once trivialCollab envWithToken).1.map RunResult.verdictPassed)) :=
  ⟨rfl, run_once_telemetry_isolation trivialCollab envWithToken rfl⟩

/-! ### Claim C5 — the two-step telemetry publish -/

/-- C5 counterexample: for a payload with no `"canal…"` key (a result with
zero channels), the flat view is empty, the `if plano:` guard skips the
first publish, and exactly one message — the full payload — is published on
a successful handoff, not two. -/
theorem send_json_single_message_counterexample :
    send_json_to_thingsboard [("overall", JVal.str "FAILED")] true
      = (true, [[("overall", JVal.str "FAILED")]]) ∧
    (send_json_to_thingsboard [("overall", JVal.str "FAILED")] true).2.length ≠ 2 := by
  decide

/-- C5 (amended): on a handoff whose connection succeeds, the flattened
per-channel view is published first only when it is non-empty, always
followed by the full payload — two messages when the flat view is non-empty,
one otherwise, never more than two (no publish is retried); a failed
connection publishes nothing and the caller only ever receives a boolean
outcome. -/
theorem send_json_publish_spec (p : Payload) :
    send_json_to_thingsboard p false = (false, []) ∧
    (send_json_to_thingsboard p true).1 = true ∧
    (send_json_to_thingsboard p true).2
      = (if (planoOf p).isEmpty then [] else [planoOf p]) ++ [p] ∧
    ((planoOf p).isEmpty = false →
      (send_json_to_thingsboard p true).2 = [planoOf p, p]) ∧
    (∀ b, (send_json_to_thingsboard p b).2.length ≤ 2) := by
  refine ⟨rfl, rfl, rfl, ?_, ?_⟩
  · intro hp
    simp [send_json_to_thingsboard, hp]
  · intro b
    cases b <;> simp only [send_json_to_thingsboard, if_true, if_false]
    · simp
    · split <;> simp

/-- C5 witness: a payload carrying one `canal1` entry is published as the
flat view followed by the full payload. -/
theorem send_json_publish_spec_witness :
    ((planoOf [("canal1", JVal.str "OK"), ("overall", JVal.str "F")]).isEmpty = false) ∧
    (send_json_to_thingsboard [("canal1", JVal.str "OK"), ("overall", JVal.str "F")] true).2
      = [planoOf [("canal1", JVal.str "OK"), ("overall", JVal.str "F")],
         [("canal1", JVal.str "OK"), ("overall", JVal.str "F")]] :=
  ⟨by decide,
    (send_json_publish_spec [("canal1", JVal.str "OK"), ("overall", JVal.str "F")]).2.2.2.1
      (by decide)⟩

/-! ### Claim C7 — zero-length tracks -/

/-- C7 counterexample: with an existing but zero-length reference track the
run does not fail fast: it completes with an `ok` verdict, captures the
microphone and exports a report — there is no `MalformedAudio`-style typed
failure anywhere in the code. -/
theorem zero_length_completes_counterexample :
    (run_once trivialCollab envEmptyRef).1
      = Except.ok (⟨[], true, [("overall", JVal.str "PASSED")], false⟩ : RunResult) ∧
    (run_once trivialCollab envEmptyRef).2
      = [RunEffect.capture,
         RunEffect.exportReport [("overall", JVal.str "PASSED")]] := by
  decide

/-- C7 (amended): a zero-length track is not rejected: `_apply_bandpass`
returns an empty track unchanged (its explicit `x.size == 0` guard), and
`_run_once` performs no zero-length validation — a run whose reference
decodes to an empty track still completes and produces a result. -/
theorem zero_length_not_rejected (fs : ℕ) (low high : ℚ) (c : Collab)
    (e : RunEnv) (h : e.refExists = true)
    (hd : e.refData = AudioData.mono []) :
    apply_bandpass [] fs low high = [] ∧
    ∃ r : RunResult, (run_once c e).1 = Except.ok r ∧
      r.refUsed = reconcileRate (c.normalizeMono []) e.refRate e.fs := by
  refine ⟨by simp [apply_bandpass], ?_⟩
  rw [run_once_eq_of_refExists c e h]
  exact ⟨_, rfl, by simp [runRef, hd, downmix]⟩

/-- C7 witness: the concrete zero-length-reference environment. -/
theorem zero_length_not_rejected_witness :
    ((envEmptyRef.refExists = true) ∧ envEmptyRef.refData = AudioData.mono []) ∧
    (apply_bandpass [] 48000 30 8000 = [] ∧
      ∃ r : RunResult, (run_once trivialCollab envEmptyRef).1 = Except.ok r ∧
        r.refUsed = reconcileRate (trivialCollab.normalizeMono [])
          envEmptyRef.refRate envEmptyRef.fs) :=
  ⟨⟨rfl, rfl⟩, zero_length_not_rejected 48000 30 8000 trivialCollab envEmptyRef rfl rfl⟩

/-! ### Claim C3 — where the band-pass filter is used -/

lemma apply_bandpass_one_sample :
    apply_bandpass [(1 : ℝ)] 48000 30 8000 = [(0 : ℝ)] := by
  have hrange : List.range 1 = [0] := rfl
  have hmask : maskedSpectrum [(1 : ℝ)] 48000 30 8000 = [0] := by
    have hcond : ¬((30 : ℚ) ≤ rfftfreq 1 48000 0 ∧ rfftfreq 1 48000 0 ≤ 8000) := by
      norm_num [rfftfreq]
    simp [maskedSpectrum, hrange, hcond]
  rw [apply_bandpass, if_neg (by simp), hmask]
  simp [irfftList, hrange]

/-- C3 counterexample: the one-sample captured reference `[1.0]` is saved to
`reference_master.wav` as-is, while its band-limited version (all bins of a
one-sample track lie below 30 Hz, so the whole spectrum is zeroed) is `[0.0]`
— the saved and later-compared reference track is NOT the band-limited one. -/
theorem bandpass_not_saved_counterexample :
    savedReferenceSamples [(1 : ℝ)] = [(1 : ℝ)] ∧
    apply_bandpass [(1 : ℝ)] 48000 30 8000 = [(0 : ℝ)] ∧
    savedReferenceSamples [(1 : ℝ)] ≠ apply_bandpass [(1 : ℝ)] 48000 30 8000 := by
  refine ⟨rfl, apply_bandpass_one_sample, ?_⟩
  rw [apply_bandpass_one_sample]
  simp [savedReferenceSamples]

/-- C3 (amended): the band-pass filter is applied only to render the
"Reference — TRIMMED" waveform preview in the settings dialog; the recorded
reference is written to disk unfiltered, the reference `_run_once` compares
against is only downmixed, normalized and resampled — never band-passed —
and captured test clips are never band-pass filtered. -/
theorem bandpass_only_for_preview (normalizeMono : List ℝ → List ℝ)
    (captured : List ℝ) (fileData : AudioData ℝ) (fsRef : ℕ)
    (c : Collab) (e : RunEnv) (h : e.refExists = true) :
    savedReferenceSamples captured = captured ∧
    plotTrimmedTrack normalizeMono fileData fsRef
      = apply_bandpass (normalizeMono (downmix fileData)) fsRef 30 8000 ∧
    ∃ r : RunResult, (run_once c e).1 = Except.ok r ∧
      r.refUsed = reconcileRate (c.normalizeMono (downmix e.refData)) e.refRate e.fs ∧
      (run_once c e).2.head? = some RunEffect.capture := by
  refine ⟨rfl, rfl, ?_⟩
  rw [run_once_eq_of_refExists c e h]
  exact ⟨_, rfl, rfl, rfl⟩

/-- C3 witness: the amended statement at the concrete environment
`envWithToken`, identity normalization and a one-sample capture. -/
theorem bandpass_only_for_preview_witness :
    (envWithToken.refExists = true) ∧
    (savedReferenceSamples [(1 : ℝ)] = [(1 : ℝ)] ∧
      plotTrimmedTrack (fun xs => xs) (AudioData.mono [(1 : ℝ)]) 48000
        = apply_bandpass ((fun xs : List ℝ => xs) (downmix (AudioData.mono [(1 : ℝ)]))) 48000 30 8000 ∧
      ∃ r : RunResult, (run_once trivialCollab envWithToken).1 = Except.ok r ∧
        r.refUsed = reconcileRate (trivialCollab.normalizeMono (downmix envWithToken.refData))
          envWithToken.refRate envWithToken.fs ∧
        (run_once trivialCollab envWithToken).2.head? = some RunEffect.capture) :=
  ⟨rfl, bandpass_only_for_preview (fun xs => xs) [(1 : ℝ)] (AudioData.mono [(1 : ℝ)])
    48000 trivialCollab envWithToken rfl⟩

/-! ### Claim C1 — the brick-wall band-pass filter -/

/-- C1: for a non-empty track, `_apply_bandpass` equals the inverse real FFT,
onto exactly `len(x)` time samples, of the masked spectrum; the masked
spectrum has the `len(x)/2 + 1` bins of `np.fft.rfft`, keeps every bin whose
center frequency `k·fs/len(x)` lies in the closed band `[low_hz, high_hz]`
and zeroes exactly the bins outside it. -/
theorem bandpass_spec (x : List ℝ) (fs : ℕ) (low high : ℚ)
    (hx : x ≠ []) (hlh : low ≤ high) :
    (apply_bandpass x fs low high).length = x.length ∧
    apply_bandpass x fs low high
      = irfftList (maskedSpectrum x fs low high) x.length ∧
    (maskedSpectrum x fs low high).length = x.length / 2 + 1 ∧
    (∀ k, k < x.length / 2 + 1 →
      ¬(low ≤ rfftfreq x.length fs k ∧ rfftfreq x.length fs k ≤ high) →
      (maskedSpectrum x fs low high).getD k 0 = 0) ∧
    (∀ k, k < x.length / 2 + 1 →
      (low ≤ rfftfreq x.length fs k ∧ rfftfreq x.length fs k ≤ high) →
      (maskedSpectrum x fs low high).getD k 0 = rfftBin x k) := by
  have hlen : ¬x.length = 0 := by simpa using hx
  have hap : apply_bandpass x fs low high
      = irfftList (maskedSpectrum x fs low high) x.length := by
    rw [apply_bandpass, if_neg hlen]
  refine ⟨?_, hap, by simp [maskedSpectrum], ?_, ?_⟩
  · rw [hap]
    simp [irfftList]
  · intro k hk hout
    rw [List.getD_eq_getElem?_getD]
    simp [maskedSpectrum, List.getElem?_map, List.getElem?_range hk, hout]
  · intro k hk hin
    rw [List.getD_eq_getElem?_getD]
    simp [maskedSpectrum, List.getElem?_map, List.getElem?_range hk, hin]

/-- C1 witness: the one-sample track `[1.0]` at 48 kHz with the default
passband 30–8000 Hz. -/
theorem bandpass_spec_witness :
    (([(1 : ℝ)] ≠ ([] : List ℝ)) ∧ (30 : ℚ) ≤ 8000) ∧
    ((apply_bandpass [(1 : ℝ)] 48000 30 8000).length = ([(1 : ℝ)]).length ∧
      apply_bandpass [(1 : ℝ)] 48000 30 8000
        = irfftList (maskedSpectrum [(1 : ℝ)] 48000 30 8000) ([(1 : ℝ)]).length ∧
      (maskedSpectrum [(1 : ℝ)] 48000 30 8000).length = ([(1 : ℝ)]).length / 2 + 1 ∧
      (∀ k, k < ([(1 : ℝ)]).length / 2 + 1 →
        ¬((30 : ℚ) ≤ rfftfreq ([(1 : ℝ)]).length 48000 k ∧
            rfftfreq ([(1 : ℝ)]).length 48000 k ≤ 8000) →
        (maskedSpectrum [(1 : ℝ)] 48000 30 8000).getD k 0 = 0) ∧
      (∀ k, k < ([(1 : ℝ)]).length / 2 + 1 →
        ((30 : ℚ) ≤ rfftfreq ([(1 : ℝ)]).length 48000 k ∧
            rfftfreq ([(1 : ℝ)]).length 48000 k ≤ 8000) →
        (maskedSpectrum [(1 : ℝ)] 48000 30 8000).getD k 0 = rfftBin [(1 : ℝ)] k)) :=
  ⟨⟨by simp, by norm_num⟩,
    bandpass_spec [(1 : ℝ)] 48000 30 8000 (by simp) (by norm_num)⟩

/-! ### Claim C10 — input-device selection -/

lemma firstIdxWhere_eq_none (p : InDevice → Bool) (ds : List InDevice) :
    firstIdxWhere p ds = none ↔ ∀ d ∈ ds, p d = false := by
  induction ds with
  | nil => simp [firstIdxWhere]
  | cons d ds ih =>
      by_cases hd : p d
      · simp [firstIdxWhere, hd]
      · simp [firstIdxWhere, hd, Option.map_eq_none', ih,
          Bool.eq_false_iff.mpr hd]

lemma firstIdxWhere_eq_some (p : InDevice → Bool) (ds : List InDevice) (i : ℕ) :
    firstIdxWhere p ds = some i ↔
      (∃ d, ds[i]? = some d ∧ p d = true) ∧
      ∀ j, j < i → ∀ d, ds[j]? = some d → p d = false := by
  induction ds generalizing i with
  | nil => simp [firstIdxWhere]
  | cons d ds ih =>
      by_cases hd : p d
      · rw [firstIdxWhere, if_pos hd]
        constructor
        · intro h
          have h0 : i = 0 := by simpa using h.symm
          subst h0
          exact ⟨⟨d, by simp, hd⟩, fun j hj => by omega⟩
        · rintro ⟨⟨d', hd', hcap⟩, hmin⟩
          rcases Nat.eq_zero_or_pos i with rfl | hi
          · rfl
          · have := hmin 0 hi d (by simp)
            rw [hd] at this
            exact absurd this (by simp)
      · rw [firstIdxWhere, if_neg hd, Option.map_eq_some']
        constructor
        · rintro ⟨i', hi', rfl⟩
          obtain ⟨⟨d', hd', hcap⟩, hmin⟩ := (ih i').mp hi'
          refine ⟨⟨d', by simpa using hd', hcap⟩, ?_⟩
          intro j hj d'' hd''
          cases j with
          | zero =>
              have hdd : d = d'' := by simpa using hd''
              subst hdd
              exact Bool.eq_false_iff.mpr hd
          | succ j' =>
              exact hmin j' (by omega) d'' (by simpa using hd'')
        · rintro ⟨⟨d', hd', hcap⟩, hmin⟩
          cases i with
          | zero =>
              have hdd : d = d' := by simpa using hd'
              subst hdd
              exact absurd hcap hd
          | succ i' =>
              refine ⟨i', (ih i').mpr ⟨⟨d', by simpa using hd', hcap⟩, ?_⟩, rfl⟩
              intro j hj d'' hd''
              exact hmin (j + 1) (by omega) d'' (by simpa using hd'')

lemma envChoice_eq_some (env : EnvIdx) (ds : List InDevice) (i : ℕ) :
    envChoice env ds = some i ↔
      ∃ n : ℤ, env = EnvIdx.idx n ∧ 0 ≤ n ∧ n.toNat = i ∧
        ∃ d, ds[i]? = some d ∧ 0 < d.maxInputChannels := by
  cases env with
  | off => simp [envChoice]
  | bad => simp [envChoice]
  | idx n =>
      rw [envChoice]
      constructor
      · intro h
        split at h
        · next hcond =>
            split at h
            · next hcap =>
                have hi : n.toNat = i := by simpa using h
                subst hi
                exact ⟨n, rfl, hcond.1, rfl,
                  ds.get ⟨n.toNat, hcond.2⟩, by rw [List.getElem?_eq_getElem hcond.2]; rfl, hcap⟩
            · exact absurd h (by simp)
        · exact absurd h (by simp)
      · rintro ⟨n', hn', hn0, rfl, d, hd, hcap⟩
        have hn : n = n' := by injection hn'
        subst hn
        have hlt : n.toNat < ds.length := by
          by_contra hge
          rw [List.getElem?_eq_none (by omega)] at hd
          exact absurd hd (by simp)
        rw [dif_pos ⟨hn0, hlt⟩]
        have hget : ds.get ⟨n.toNat, hlt⟩ = d := by
          have hsome := List.getElem?_eq_getElem hlt
          rw [hsome] at hd
          exact Option.some.inj hd
        rw [if_pos (by rw [hget]; exact hcap)]

/-- C10: `pick_input_device` returns `None` exactly when the device query
fails or no device has `max_input_channels > 0`; any returned index names an
input-capable device; a valid environment override (an `AUDIOCINEMA_INPUT_INDEX`
that parses to an in-range, input-capable index) wins; otherwise, with a
non-empty preferred substring, the first device whose lowercased name
contains the lowercased substring and is input-capable wins; otherwise the
first input-capable device is returned.  The embedding is a total function:
no input makes it raise. -/
theorem pick_input_device_spec (env : EnvIdx) (pref : List Char)
    (ds : List InDevice) :
    (pick_input_device env pref none = none) ∧
    (pick_input_device env pref (some ds) = none ↔
      ∀ d ∈ ds, d.maxInputChannels ≤ 0) ∧
    (∀ i, pick_input_device env pref (some ds) = some i →
      ∃ d, ds[i]? = some d ∧ 0 < d.maxInputChannels) ∧
    (∀ i, envChoice env ds = some i →
      pick_input_device env pref (some ds) = some i ∧
      ∃ n : ℤ, env = EnvIdx.idx n ∧ 0 ≤ n ∧ n.toNat = i ∧
        ∃ d, ds[i]? = some d ∧ 0 < d.maxInputChannels) ∧
    (envChoice env ds = none → pref.isEmpty = false →
      ∀ i, firstPreferred pref ds = some i →
        pick_input_device env pref (some ds) = some i ∧
        (∃ d, ds[i]? = some d ∧
          hasSub (lowerStr pref) (lowerStr d.name) = true ∧
          0 < d.maxInputChannels) ∧
        (∀ j, j < i → ∀ d, ds[j]? = some d →
          ¬(hasSub (lowerStr pref) (lowerStr d.name) = true ∧
            0 < d.maxInputChannels))) ∧
    (envChoice env ds = none →
      (pref.isEmpty = true ∨ firstPreferred pref ds = none) →
      pick_input_device env pref (some ds) = firstCapable ds ∧
      ∀ i, firstCapable ds = some i →
        (∃ d, ds[i]? = some d ∧ 0 < d.maxInputChannels) ∧
        ∀ j, j < i → ∀ d, ds[j]? = some d → d.maxInputChannels ≤ 0) := by
  have hcap_some : ∀ i, firstCapable ds = some i →
      (∃ d, ds[i]? = some d ∧ 0 < d.maxInputChannels) ∧
      ∀ j, j < i → ∀ d, ds[j]? = some d → d.maxInputChannels ≤ 0 := by
    intro i hi
    obtain ⟨⟨d, hd, hcap⟩, hmin⟩ := (firstIdxWhere_eq_some _ ds i).mp hi
    refine ⟨⟨d, hd, by simpa using hcap⟩, ?_⟩
    intro j hj d' hd'
    have := hmin j hj d' hd'
    simpa using this
  have hpref_some : ∀ i, firstPreferred pref ds = some i →
      (∃ d, ds[i]? = some d ∧
        hasSub (lowerStr pref) (lowerStr d.name) = true ∧
        0 < d.maxInputChannels) ∧
      (∀ j, j < i → ∀ d, ds[j]? = some d →
        ¬(hasSub (lowerStr pref) (lowerStr d.name) = true ∧
          0 < d.maxInputChannels)) := by
    intro i hi
    obtain ⟨⟨d, hd, hcond⟩, hmin⟩ := (firstIdxWhere_eq_some _ ds i).mp hi
    rw [Bool.and_eq_true, decide_eq_true_eq] at hcond
    refine ⟨⟨d, hd, hcond.1, hcond.2⟩, ?_⟩
    intro j hj d' hd' hcontra
    have := hmin j hj d' hd'
    rw [Bool.and_eq_false_iff] at this
    rcases this with h | h
    · exact absurd hcontra.1 (by simp [h])
    · exact absurd hcontra.2 (by simpa using h)
  refine ⟨rfl, ?_, ?_, ?_, ?_, ?_⟩
  · -- none ↔ no capable device
    constructor
    · intro h
      rw [pick_input_device] at h
      intro d hd
      by_contra hcap
      push_neg at hcap
      cases henv : envChoice env ds with
      | some j => rw [henv] at h; exact absurd h (by simp)
      | none =>
          rw [henv] at h
          cases hp : (if pref.isEmpty then none else firstPreferred pref ds) with
          | some j => rw [hp] at h; exact absurd h (by simp)
          | none =>
              rw [hp] at h
              have : firstCapable ds = none := h
              have hall := (firstIdxWhere_eq_none _ ds).mp this d hd
              simp at hall
              omega
    · intro hall
      have hcapn : firstCapable ds = none :=
        (firstIdxWhere_eq_none _ ds).mpr (fun d hd => by
          simp [Int.not_lt.mpr (hall d hd)])
      have hprefn : firstPreferred pref ds = none :=
        (firstIdxWhere_eq_none _ ds).mpr (fun d hd => by
          rw [Bool.and_eq_false_iff]
          right
          simp [Int.not_lt.mpr (hall d hd)])
      have henvn : envChoice env ds = none := by
        cases henv : envChoice env ds with
        | none => rfl
        | some j =>
            obtain ⟨n, _, _, _, d, hd, hcap⟩ := (envChoice_eq_some env ds j).mp henv
            have : d ∈ ds := by
              have := List.getElem?_eq_some_iff.mp hd
              obtain ⟨hlt, hget⟩ := this
              exact hget ▸ List.getElem_mem hlt
            exact absurd hcap (by simpa using Int.not_lt.mpr (hall d this))
      rw [pick_input_device, henvn, hprefn]
      cases pref.isEmpty <;> simp [hcapn]
  · -- any returned index is input-capable
    intro i hi
    rw [pick_input_device] at hi
    cases henv : envChoice env ds with
    | some j =>
        rw [henv] at hi
        have hj : j = i := by simpa using hi
        subst hj
        obtain ⟨n, _, _, _, d, hd, hcap⟩ := (envChoice_eq_some env ds j).mp henv
        exact ⟨d, hd, hcap⟩
    | none =>
        rw [henv] at hi
        cases hp : (if pref.isEmpty then none else firstPreferred pref ds) with
        | some j =>
            rw [hp] at hi
            have hj : j = i := by simpa using hi
            subst hj
            have hpj : firstPreferred pref ds = some j := by
              by_cases hpe : pref.isEmpty
              · rw [if_pos hpe] at hp; exact absurd hp (by simp)
              · rw [if_neg hpe] at hp; exact hp
            obtain ⟨⟨d, hd, _, hcap⟩, _⟩ := hpref_some j hpj
            exact ⟨d, hd, hcap⟩
        | none =>
            rw [hp] at hi
            obtain ⟨⟨d, hd, hcap⟩, _⟩ := hcap_some i hi
            exact ⟨d, hd, hcap⟩
  · -- the environment override wins
    intro i hi
    refine ⟨by rw [pick_input_device, hi], (envChoice_eq_some env ds i).mp hi⟩
  · -- then the preferred-name match
    intro henv hpe i hi
    refine ⟨?_, hpref_some i hi⟩
    rw [pick_input_device, henv, if_neg (by simp [hpe]), hi]
  · -- then the first capable device
    intro henv hrest
    refine ⟨?_, hcap_some⟩
    rcases hrest with hpe | hpn
    · rw [pick_input_device, henv, if_pos hpe]
    · by_cases hpe : pref.isEmpty
      · rw [pick_input_device, henv, if_pos hpe]
      · rw [pick_input_device, henv, if_neg hpe, hpn]

/-- C10 witness: with no usable environment override and preferred substring
`"us"`, device 1 (`"USB"`, two input channels) is chosen over the capable
device 0 because its name matches case-insensitively. -/
theorem pick_input_device_spec_witness :
    (envChoice EnvIdx.bad [⟨['a'], 3⟩, ⟨['U', 'S', 'B'], 2⟩] = none ∧
      (['u', 's'] : List Char).isEmpty = false ∧
      firstPreferred ['u', 's'] [⟨['a'], 3⟩, ⟨['U', 'S', 'B'], 2⟩] = some 1) ∧
    pick_input_device EnvIdx.bad ['u', 's']
      (some [⟨['a'], 3⟩, ⟨['U', 'S', 'B'], 2⟩]) = some 1 :=
  ⟨⟨by decide, by decide, by decide⟩,
    ((pick_input_device_spec EnvIdx.bad ['u', 's']
        [⟨['a'], 3⟩, ⟨['U', 'S', 'B'], 2⟩]).2.2.2.2.1
      (by decide) (by decide) 1 (by decide)).1⟩
